import Mathlib

/-!
# pgcenter: disk statistics deltas, version-adaptive views, the stats collector loop

A shallow embedding of three parts of pgcenter:

* `top/ui.go`: `doWork2` and `collectStat`, the consumer and the producer of stats frames,
  as a step function on their program points;

* `internal/stat/diskstats.go`: `countDiskstatsUsage`, which turns two snapshots of
  `/proc/diskstats` counters into per-device metrics;
* `internal/view/view.go`: `New` and `Views.Configure`, which select query templates and
  column layouts by PostgreSQL version.

Conventions of the embedding.

* A Go `float64` is an exact rational (`ℚ`).  The counters are scanned from decimal integers,
  on which the sums, differences and comparisons of the code are exact as long as they stay
  below 2^53; beyond that, and for a quotient, the rational is the value that `float64`
  rounds.  The theorems on the metrics name the expressions that the code evaluates, guard by
  guard and quotient by quotient, and use no identity of the rationals to rewrite them.
  A quotient by zero is `±Inf` or `NaN` in Go, which no rational stands for:
  the division of the embedding, `fdiv`, reports it as the fault `divisionByZero`.
* A Go slice is a `List`; the `nil` slice is `[]`.  Indexing outside a slice panics in Go: the
  embedding reports it as the fault `indexOutOfRange`.
* A Go `map[string]View` is a list of key/value entries with update-by-key; the order of the
  list is the order in which `range` visits the map.
* The helper `sValue` and package `query` live in other files of the repository: they are
  parameters of the functions that call them.
-/

namespace stat

/-- What the embedding reports instead of a value: a Go panic on a slice index, or a quotient
by zero, whose Go value is not a finite number. -/
inductive Fault where
  | indexOutOfRange
  | divisionByZero
deriving DecidableEq, Repr

/-- The Go quotient `a / b` of two `float64`. -/
def fdiv (a b : ℚ) : Except Fault ℚ :=
  if b = 0 then .error .divisionByZero else .ok (a / b)

/-- The Go index expression `xs[i]`. -/
def index {α : Type} (xs : List α) (i : Nat) : Except Fault α :=
  match xs[i]? with
  | some x => .ok x
  | none => .error .indexOutOfRange

/-- Container `Diskstat`: the stats of a single block device. -/
structure Diskstat where
  Major : Int := 0
  Minor : Int := 0
  Device : String := ""
  Rcompleted : ℚ := 0
  Rmerged : ℚ := 0
  Rsectors : ℚ := 0
  Rspent : ℚ := 0
  Wcompleted : ℚ := 0
  Wmerged : ℚ := 0
  Wsectors : ℚ := 0
  Wspent : ℚ := 0
  Ioinprogress : ℚ := 0
  Tspent : ℚ := 0
  Tweighted : ℚ := 0
  Uptime : ℚ := 0
  Completed : ℚ := 0
  Rawait : ℚ := 0
  Wawait : ℚ := 0
  Await : ℚ := 0
  Arqsz : ℚ := 0
  Util : ℚ := 0

/-- Container `Diskstats`: the stats of all block devices. -/
abbrev Diskstats := List Diskstat

/-- The Go zero value of `Diskstat`, which `make([]Diskstat, n)` puts at every index. -/
def Diskstat.zero : Diskstat := {}

/-- The type of the helper `sValue(prev, curr, itv, ticks)`, which `diskstats.go` calls and
does not define. -/
abbrev SValue := ℚ → ℚ → ℚ → ℚ → ℚ

/-- One iteration of the loop of `countDiskstatsUsage`: what it makes of `stat[i]`, here `s`,
given `prev[i]` and `curr[i]`.  The `continue` of an inactive device leaves `s` as it is.
The quotients by the constants 10, 2048 and 1000 are written with the division of `ℚ`. -/
def usageStep (sValue : SValue) (p c : Diskstat) (ticks : ℚ) (s : Diskstat) :
    Except Fault Diskstat :=
  if c.Rcompleted + c.Wcompleted = 0 then pure s
  else do
    let itv := c.Uptime - p.Uptime
    let util := sValue p.Tspent c.Tspent itv ticks / 10
    let await ←
      if ((c.Rcompleted + c.Wcompleted) - (p.Rcompleted + p.Wcompleted)) > 0 then
        fdiv ((c.Rspent - p.Rspent) + (c.Wspent - p.Wspent))
          ((c.Rcompleted + c.Wcompleted) - (p.Rcompleted + p.Wcompleted))
      else pure 0
    let arqsz ←
      if ((c.Rcompleted + c.Wcompleted) - (p.Rcompleted + p.Wcompleted)) > 0 then
        fdiv ((c.Rsectors - p.Rsectors) + (c.Wsectors - p.Wsectors))
          ((c.Rcompleted + c.Wcompleted) - (p.Rcompleted + p.Wcompleted))
      else pure 0
    let rawait ←
      if (c.Rcompleted - p.Rcompleted) > 0 then
        fdiv (c.Rspent - p.Rspent) (c.Rcompleted - p.Rcompleted)
      else pure 0
    let wawait ←
      if (c.Wcompleted - p.Wcompleted) > 0 then
        fdiv (c.Wspent - p.Wspent) (c.Wcompleted - p.Wcompleted)
      else pure 0
    pure { s with
      Device := c.Device
      Completed := c.Rcompleted + c.Wcompleted
      Util := util
      Await := await
      Arqsz := arqsz
      Rawait := rawait
      Wawait := wawait
      Rmerged := sValue p.Rmerged c.Rmerged itv ticks
      Wmerged := sValue p.Wmerged c.Wmerged itv ticks
      Rcompleted := sValue p.Rcompleted c.Rcompleted itv ticks
      Wcompleted := sValue p.Wcompleted c.Wcompleted itv ticks
      Rsectors := sValue p.Rsectors c.Rsectors itv ticks / 2048
      Wsectors := sValue p.Wsectors c.Wsectors itv ticks / 2048
      Tweighted := sValue p.Tweighted c.Tweighted itv ticks / 1000 }

/-- The loop `for i := 0; i < len(curr); i++` of `countDiskstatsUsage`, started at index `i`
with `n` iterations left, on the slice `stat`. -/
def usageLoop (sValue : SValue) (prev curr : Diskstats) (ticks : ℚ) :
    Nat → Nat → Diskstats → Except Fault Diskstats
  | 0, _, stat => pure stat
  | n + 1, i, stat => do
    let c ← index curr i
    let p ← index prev i
    let s ← index stat i
    let s' ← usageStep sValue p c ticks s
    usageLoop sValue prev curr ticks n (i + 1) (stat.set i s')

/-- Function `countDiskstatsUsage(prev, curr, ticks)`. -/
def countDiskstatsUsage (sValue : SValue) (prev curr : Diskstats) (ticks : ℚ) :
    Except Fault Diskstats :=
  if curr.length ≠ prev.length then pure []
  else
    usageLoop sValue prev curr ticks curr.length 0 (List.replicate curr.length Diskstat.zero)

/-- The record that one iteration of the loop leaves at an active index whose slot held `s`:
the assignments of the loop body, each quotient guarded as in the source. -/
def usageRecord (sValue : SValue) (p c : Diskstat) (ticks : ℚ) (s : Diskstat) : Diskstat :=
  { s with
    Device := c.Device
    Completed := c.Rcompleted + c.Wcompleted
    Util := sValue p.Tspent c.Tspent (c.Uptime - p.Uptime) ticks / 10
    Await :=
      if ((c.Rcompleted + c.Wcompleted) - (p.Rcompleted + p.Wcompleted)) > 0 then
        ((c.Rspent - p.Rspent) + (c.Wspent - p.Wspent)) /
          ((c.Rcompleted + c.Wcompleted) - (p.Rcompleted + p.Wcompleted))
      else 0
    Arqsz :=
      if ((c.Rcompleted + c.Wcompleted) - (p.Rcompleted + p.Wcompleted)) > 0 then
        ((c.Rsectors - p.Rsectors) + (c.Wsectors - p.Wsectors)) /
          ((c.Rcompleted + c.Wcompleted) - (p.Rcompleted + p.Wcompleted))
      else 0
    Rawait :=
      if (c.Rcompleted - p.Rcompleted) > 0 then
        (c.Rspent - p.Rspent) / (c.Rcompleted - p.Rcompleted)
      else 0
    Wawait :=
      if (c.Wcompleted - p.Wcompleted) > 0 then
        (c.Wspent - p.Wspent) / (c.Wcompleted - p.Wcompleted)
      else 0
    Rmerged := sValue p.Rmerged c.Rmerged (c.Uptime - p.Uptime) ticks
    Wmerged := sValue p.Wmerged c.Wmerged (c.Uptime - p.Uptime) ticks
    Rcompleted := sValue p.Rcompleted c.Rcompleted (c.Uptime - p.Uptime) ticks
    Wcompleted := sValue p.Wcompleted c.Wcompleted (c.Uptime - p.Uptime) ticks
    Rsectors := sValue p.Rsectors c.Rsectors (c.Uptime - p.Uptime) ticks / 2048
    Wsectors := sValue p.Wsectors c.Wsectors (c.Uptime - p.Uptime) ticks / 2048
    Tweighted := sValue p.Tweighted c.Tweighted (c.Uptime - p.Uptime) ticks / 1000 }

end stat

namespace view

/-- What package `query` gives to `view.go`: the query templates, the options derived from
the profile (`opts := query.Options{}; opts.Configure(version, recovery, app)`) and the
template expansion `query.Format`.  The package is defined outside `view.go`, so it is a
parameter; `Options` is its type of options. -/
structure QueryPkg (Options : Type) where
  PgStatDatabaseDefault : String
  PgStatDatabase11 : String
  PgStatReplicationDefault : String
  PgStatReplicationExtended : String
  PgStatReplication96 : String
  PgStatReplication96Extended : String
  PgStatTablesDefault : String
  PgStatIndexesDefault : String
  PgTablesSizesDefault : String
  PgStatFunctionsDefault : String
  PgStatProgressVacuumDefault : String
  PgStatProgressClusterDefault : String
  PgStatProgressCreateIndexDefault : String
  PgStatActivityDefault : String
  PgStatActivity96 : String
  PgStatActivity95 : String
  PgStatStatementsTimingDefault : String
  PgStatStatementsTiming12 : String
  PgStatStatementsGeneralDefault : String
  PgStatStatementsIoDefault : String
  PgStatStatementsTempDefault : String
  PgStatStatementsLocalDefault : String
  OptionsConfigure : Int → String → String → Options
  Format : String → Options → Except String String

/-- Type `View`: how stats received from Postgres should be displayed.  The maps `ColsWidth`
and `Filters` are lists of entries, a filter being the text of its pattern; `Refresh` is the
duration as a number. -/
structure View where
  Name : String := ""
  QueryTmpl : String := ""
  Query : String := ""
  DiffIntvl : Int × Int := (0, 0)
  Cols : List String := []
  Ncols : Int := 0
  OrderKey : Int := 0
  OrderDesc : Bool := false
  UniqueKey : Int := 0
  ColsWidth : List (Int × Int) := []
  Aligned : Bool := false
  Msg : String := ""
  Filters : List (Int × String) := []
  Refresh : Int := 0
  ShowExtra : Int := 0
deriving DecidableEq

/-- Type `Views`, a `map[string]View`: the entries in the order in which `range` visits
them. -/
abbrev Views := List (String × View)

/-- The keys of the map, in visiting order. -/
def Views.keys (v : Views) : List String := v.map Prod.fst

/-- The Go expression `v[k]` with its presence flag. -/
def Views.get (v : Views) (k : String) : Option View := List.lookup k v

/-- The Go assignment `v[k] = view`. -/
def Views.set : Views → String → View → Views
  | [], k, view => [(k, view)]
  | (k', w) :: rest, k, view =>
    if k' = k then (k, view) :: rest else (k', w) :: Views.set rest k view

/-- Function `New()`: the set of predefined views. -/
def New {Options : Type} (q : QueryPkg Options) : Views :=
  [ ("databases",
      { Name := "databases", QueryTmpl := q.PgStatDatabaseDefault, DiffIntvl := (1, 16),
        Ncols := 18, OrderKey := 0, OrderDesc := true, ColsWidth := [],
        Msg := "Show databases statistics", Filters := [] }),
    ("replication",
      { Name := "replication", QueryTmpl := q.PgStatReplicationDefault, DiffIntvl := (6, 6),
        Ncols := 15, OrderKey := 0, OrderDesc := true, ColsWidth := [],
        Msg := "Show replication statistics", Filters := [] }),
    ("tables",
      { Name := "tables", QueryTmpl := q.PgStatTablesDefault, DiffIntvl := (1, 18),
        Ncols := 19, OrderKey := 0, OrderDesc := true, ColsWidth := [],
        Msg := "Show tables statistics", Filters := [] }),
    ("indexes",
      { Name := "indexes", QueryTmpl := q.PgStatIndexesDefault, DiffIntvl := (1, 5),
        Ncols := 6, OrderKey := 0, OrderDesc := true, ColsWidth := [],
        Msg := "Show indexes statistics", Filters := [] }),
    ("sizes",
      { Name := "sizes", QueryTmpl := q.PgTablesSizesDefault, DiffIntvl := (4, 6),
        Ncols := 7, OrderKey := 0, OrderDesc := true, ColsWidth := [],
        Msg := "Show tables sizes statistics", Filters := [] }),
    ("functions",
      { Name := "functions", QueryTmpl := q.PgStatFunctionsDefault, DiffIntvl := (3, 3),
        Ncols := 8, OrderKey := 0, OrderDesc := true, ColsWidth := [],
        Msg := "Show functions statistics", Filters := [] }),
    ("progress_vacuum",
      { Name := "progress_vacuum", QueryTmpl := q.PgStatProgressVacuumDefault,
        DiffIntvl := (10, 11), Ncols := 13, OrderKey := 0, OrderDesc := true, ColsWidth := [],
        Msg := "Show vacuum progress statistics", Filters := [] }),
    ("progress_cluster",
      { Name := "progress_cluster", QueryTmpl := q.PgStatProgressClusterDefault,
        DiffIntvl := (10, 11), Ncols := 13, OrderKey := 0, OrderDesc := true, ColsWidth := [],
        Msg := "Show cluster/vacuum full progress statistics", Filters := [] }),
    ("progress_index",
      { Name := "progress_index", QueryTmpl := q.PgStatProgressCreateIndexDefault,
        DiffIntvl := (0, 0), Ncols := 14, OrderKey := 0, OrderDesc := true, ColsWidth := [],
        Msg := "Show create index/reindex progress statistics", Filters := [] }),
    ("activity",
      { Name := "activity", QueryTmpl := q.PgStatActivityDefault, DiffIntvl := (0, 0),
        Ncols := 14, OrderKey := 0, OrderDesc := true, ColsWidth := [],
        Msg := "Show activity statistics", Filters := [] }),
    ("statements_timings",
      { Name := "statements_timings", QueryTmpl := q.PgStatStatementsTimingDefault,
        DiffIntvl := (6, 10), Ncols := 13, OrderKey := 0, OrderDesc := true, UniqueKey := 11,
        ColsWidth := [], Msg := "Show statements timings statistics", Filters := [] }),
    ("statements_general",
      { Name := "statements_general", QueryTmpl := q.PgStatStatementsGeneralDefault,
        DiffIntvl := (4, 5), Ncols := 8, OrderKey := 0, OrderDesc := true, UniqueKey := 6,
        ColsWidth := [], Msg := "Show statements general statistics", Filters := [] }),
    ("statements_io",
      { Name := "statements_io", QueryTmpl := q.PgStatStatementsIoDefault,
        DiffIntvl := (6, 10), Ncols := 13, OrderKey := 0, OrderDesc := true, UniqueKey := 11,
        ColsWidth := [], Msg := "Show statements IO statistics", Filters := [] }),
    ("statements_temp",
      { Name := "statements_temp", QueryTmpl := q.PgStatStatementsTempDefault,
        DiffIntvl := (4, 6), Ncols := 9, OrderKey := 0, OrderDesc := true, UniqueKey := 7,
        ColsWidth := [], Msg := "Show statements temp files statistics", Filters := [] }),
    ("statements_local",
      { Name := "statements_local", QueryTmpl := q.PgStatStatementsLocalDefault,
        DiffIntvl := (6, 10), Ncols := 13, OrderKey := 0, OrderDesc := true, UniqueKey := 11,
        ColsWidth := [], Msg := "Show statements temp tables statistics (local IO)",
        Filters := [] }) ]

/-- The body of the first loop of `Configure` for the entry `k, view`: the `switch k` with
its inner version switches. -/
def configureView {Options : Type} (q : QueryPkg Options) (version : Int) (track : Bool)
    (k : String) (view : View) (v : Views) : Views :=
  if k = "activity" then
    if version < 90600 then
      v.set k { view with QueryTmpl := q.PgStatActivity95, Ncols := 12 }
    else if version < 100000 then
      v.set k { view with QueryTmpl := q.PgStatActivity96, Ncols := 13 }
    else v
  else if k = "replication" then
    if version < 90500 then
      v.set k { view with QueryTmpl := q.PgStatReplication96, Ncols := 12 }
    else if version < 100000 then
      if track then
        v.set k { view with QueryTmpl := q.PgStatReplication96Extended, Ncols := 14 }
      else
        v.set k { view with QueryTmpl := q.PgStatReplication96, Ncols := 12 }
    else
      if track then
        v.set k { view with QueryTmpl := q.PgStatReplicationExtended, Ncols := 17 }
      else
        v.set k view
  else if k = "databases" then
    if version < 120000 then
      v.set k { view with QueryTmpl := q.PgStatDatabase11, Ncols := 17, DiffIntvl := (1, 15) }
    else v
  else if k = "statements_timings" then
    if version < 130000 then
      v.set k { view with QueryTmpl := q.PgStatStatementsTiming12 }
    else v
  else v

/-- The first loop of `Configure`, `for k, view := range v`, over the keys still to visit;
`view` is the entry of `k` at the time of the visit. -/
def selectLoop {Options : Type} (q : QueryPkg Options) (version : Int) (track : Bool) :
    List String → Views → Views
  | [], v => v
  | k :: rest, v =>
    match v.get k with
    | some view => selectLoop q version track rest (configureView q version track k view v)
    | none => selectLoop q version track rest v

/-- The second loop of `Configure`, which builds the query texts, over the keys still to
visit.  The result is the returned error (`none` for `nil`) and the map as the loop leaves
it. -/
def formatLoop {Options : Type} (q : QueryPkg Options) (opts : Options) :
    List String → Views → Option String × Views
  | [], v => (none, v)
  | k :: rest, v =>
    match v.get k with
    | some view =>
      match q.Format view.QueryTmpl opts with
      | .error err => (some err, v)
      | .ok text => formatLoop q opts rest (v.set k { view with Query := text })
    | none => formatLoop q opts rest v

/-- Method `Views.Configure(version, recovery, gucTrackCommitXactTimestamp, app)`.  A Go map
is a reference: the second component is the map `v` as the call leaves it, the first the
returned error. -/
def Configure {Options : Type} (q : QueryPkg Options) (version : Int)
    (recovery gucTrackCommitXactTimestamp app : String) (v : Views) : Option String × Views :=
  let track : Bool := gucTrackCommitXactTimestamp = "on"
  let v1 := selectLoop q version track v.keys v
  let opts := q.OptionsConfigure version recovery app
  formatLoop q opts v1.keys v1

end view

/-! ### The helper `sValue` and sample inputs -/

namespace stat

/-- Modelled from the spec: the helper `sValue(prev, curr, itv, ticks)` of package `stat`,
called by `countDiskstatsUsage`, whose body is missing from `diskstats.go`.  The spec gives
the rate as `(curr-prev)/intervalSeconds/ticksPerSecond`, says that "a detected reset yields a
zero delta, never a negative rate" and that the "elapsed interval must be > 0 for rate
division; otherwise all rate metrics are 0". -/
def sValue (prev curr itv ticks : ℚ) : ℚ :=
  if itv > 0 ∧ curr > prev then (curr - prev) / itv / ticks else 0

/-- The test `curr[i].Rcompleted+curr[i].Wcompleted == 0` of the loop, negated: the device
is active. -/
def isActive (c : Diskstat) : Bool := decide (c.Rcompleted + c.Wcompleted ≠ 0)

/-- Device `sda` at the first sample: 100 reads in 1000 ms, 50 writes in 500 ms. -/
def sdaPrev : Diskstat :=
  { Major := 8, Minor := 0, Device := "sda", Rcompleted := 100, Rsectors := 4000,
    Rspent := 1000, Wcompleted := 50, Wsectors := 2000, Wspent := 500, Tspent := 1200,
    Tweighted := 1500, Uptime := 1000 }

/-- Device `sda` ten seconds later: 150 reads in 1800 ms, 80 writes in 740 ms. -/
def sdaCurr : Diskstat :=
  { Major := 8, Minor := 0, Device := "sda", Rcompleted := 150, Rsectors := 5600,
    Rspent := 1800, Wcompleted := 80, Wsectors := 2800, Wspent := 740, Tspent := 1700,
    Tweighted := 2540, Uptime := 1010 }

/-- Device `sda` ten more seconds later, no counter having moved. -/
def sdaLater : Diskstat := { sdaCurr with Uptime := 1020 }

/-- Device `sda` ten seconds after `sdaPrev` with the read-time counter gone backwards, from
1000 to 500, while the other counters advanced as in `sdaCurr`. -/
def sdaReadTimeReset : Diskstat := { sdaCurr with Rspent := 500 }

/-- Device `sdb`, which has never completed a read or a write. -/
def sdbIdle : Diskstat :=
  { Major := 8, Minor := 16, Device := "sdb", Uptime := 1010 }

end stat

namespace view

/-- A package `query` whose templates are their own names and whose expansion succeeds on
every template. -/
def okQuery : QueryPkg Unit :=
  { PgStatDatabaseDefault := "PgStatDatabaseDefault"
    PgStatDatabase11 := "PgStatDatabase11"
    PgStatReplicationDefault := "PgStatReplicationDefault"
    PgStatReplicationExtended := "PgStatReplicationExtended"
    PgStatReplication96 := "PgStatReplication96"
    PgStatReplication96Extended := "PgStatReplication96Extended"
    PgStatTablesDefault := "PgStatTablesDefault"
    PgStatIndexesDefault := "PgStatIndexesDefault"
    PgTablesSizesDefault := "PgTablesSizesDefault"
    PgStatFunctionsDefault := "PgStatFunctionsDefault"
    PgStatProgressVacuumDefault := "PgStatProgressVacuumDefault"
    PgStatProgressClusterDefault := "PgStatProgressClusterDefault"
    PgStatProgressCreateIndexDefault := "PgStatProgressCreateIndexDefault"
    PgStatActivityDefault := "PgStatActivityDefault"
    PgStatActivity96 := "PgStatActivity96"
    PgStatActivity95 := "PgStatActivity95"
    PgStatStatementsTimingDefault := "PgStatStatementsTimingDefault"
    PgStatStatementsTiming12 := "PgStatStatementsTiming12"
    PgStatStatementsGeneralDefault := "PgStatStatementsGeneralDefault"
    PgStatStatementsIoDefault := "PgStatStatementsIoDefault"
    PgStatStatementsTempDefault := "PgStatStatementsTempDefault"
    PgStatStatementsLocalDefault := "PgStatStatementsLocalDefault"
    OptionsConfigure := fun _ _ _ => ()
    Format := fun tmpl _ => .ok tmpl }

/-- The same package, except that the expansion of the template of the `tables` view
fails. -/
def failingQuery : QueryPkg Unit :=
  { okQuery with
    Format := fun tmpl _ =>
      if tmpl = "PgStatTablesDefault" then .error "template: bad placeholder" else .ok tmpl }

/-- The column indices of a view lie inside its layout: `DiffIntvl` is an interval of columns,
`UniqueKey` and `OrderKey` are indices of columns, and `Ncols`, the number of columns returned
by the query, is their right border. -/
def View.columnsOk (w : View) : Prop :=
  0 ≤ w.DiffIntvl.1 ∧ w.DiffIntvl.1 ≤ w.DiffIntvl.2 ∧ w.DiffIntvl.2 < w.Ncols ∧
    0 ≤ w.UniqueKey ∧ w.UniqueKey < w.Ncols ∧ 0 ≤ w.OrderKey ∧ w.OrderKey < w.Ncols

/-- A view without its query text: what the second loop of `Configure` never changes. -/
def View.eraseQuery (w : View) : View := { w with Query := "" }

end view

/-! ### The producer and the consumer of `top/ui.go`

`doWork2` starts a goroutine that runs `collectStat` and then closes the channel, and itself
loops on a `select` over the channel and `ctx.Done()`.  The two run interleaved; the embedding
is a step function on the program points of both, on the state of the unbuffered channel `ch`
and on the cancellation signal.  An event names the statement that runs next, or a choice of
the environment (the result of a call to the collector, the ticker, the cancellation).  The
Go runtime panics on `close` of a closed channel and on a send on a closed channel, a receive
on a closed channel yields the zero value at once, and a send on an unbuffered channel
completes together with the receive. -/

namespace top

/-- The run-time panics of Go on a channel. -/
inductive Fault where
  | closeOfClosedChannel
  | sendOnClosedChannel
deriving DecidableEq, Repr

/-- Program points of the goroutine started by `doWork2`:
`collectStat(ctx, ch, app.db); close(ch); wg.Done()`. -/
inductive Producer where
  /-- In `collectStat`, at `stat.NewCollector(db)`. -/
  | atNewCollector
  /-- In `collectStat`, at `c.Update(db)`. -/
  | atUpdate
  /-- In `collectStat`, at `ch <- stats`. -/
  | atSend
  /-- In `collectStat`, at the `select` over `ctx.Done()` and `ticker.C`. -/
  | atSelect
  /-- After `collectStat` has returned, at `close(ch)`. -/
  | atClose
  /-- At `wg.Done()`. -/
  | atWgDone
  /-- The goroutine has ended. -/
  | exited
deriving DecidableEq, Repr

/-- Program points of the loop of `doWork2`. -/
inductive Consumer where
  /-- At the `select` over `<-ch` and `<-ctx.Done()`. -/
  | atSelect
  /-- In the case `<-ctx.Done()`, at `close(ch)`. -/
  | atClose
  /-- At `wg.Wait()`. -/
  | atWait
  /-- The function `doWork2` has returned. -/
  | returned
deriving DecidableEq, Repr

/-- The state of the pair: the two program points, whether `ch` is closed, whether
`ctx.Done()` is raised, the panic if one happened, and two counters: the calls of
`close(ch)` so far and the values passed to `printStat` so far. -/
structure State where
  producer : Producer
  consumer : Consumer
  closed : Bool
  cancelled : Bool
  fault : Option Fault
  closes : Nat
  handed : Nat
deriving DecidableEq, Repr

/-- What happens next. -/
inductive Event where
  /-- The environment raises `ctx.Done()`. -/
  | cancel
  /-- Call `stat.NewCollector(db)` returns without error. -/
  | collectorOk
  /-- Call `stat.NewCollector(db)` returns an error: `collectStat` returns. -/
  | collectorErr
  /-- Call `c.Update(db)` returns stats. -/
  | updateOk
  /-- Call `c.Update(db)` returns an error, which is printed. -/
  | updateErr
  /-- The send `ch <- stats` meets the receive `s := <-ch`; `printStat(app, s)` runs. -/
  | handoff
  /-- The send `ch <- stats` finds `ch` closed. -/
  | sendOnClosed
  /-- The case `<-ticker.C` of `collectStat`: `continue`. -/
  | tick
  /-- The case `<-ctx.Done()` of `collectStat`: `return`. -/
  | producerSeesDone
  /-- The statement `close(ch)` of the goroutine. -/
  | producerClose
  /-- The statement `wg.Done()` of the goroutine. -/
  | producerWgDone
  /-- The receive `s := <-ch` of `doWork2` on the closed `ch`: `printStat` runs on the zero
  value. -/
  | receiveClosed
  /-- The case `<-ctx.Done()` of `doWork2`. -/
  | consumerSeesDone
  /-- The statement `close(ch)` of `doWork2`. -/
  | consumerClose
  /-- The call `wg.Wait()` of `doWork2` returns, and `doWork2` returns. -/
  | consumerWaitDone
deriving DecidableEq, Repr

/-- The state in which `doWork2` has made the channel and started the goroutine. -/
def init : State :=
  { producer := .atNewCollector, consumer := .atSelect, closed := false, cancelled := false,
    fault := none, closes := 0, handed := 0 }

/-- The statement `close(ch)` run in state `s`: a panic on a closed channel; otherwise the
channel is closed and the program goes on as in `next`. -/
def closeChannel (s next : State) : State :=
  if s.closed then { s with fault := some .closeOfClosedChannel, closes := s.closes + 1 }
  else { next with closed := true, closes := s.closes + 1 }

/-- One step of the pair; `none` when the event cannot happen in the state.  Nothing happens
after a panic, which ends the process. -/
def step (s : State) (e : Event) : Option State :=
  if s.fault.isSome then none
  else
    match e with
    | .cancel => some { s with cancelled := true }
    | .collectorOk =>
      if s.producer = .atNewCollector then some { s with producer := .atUpdate } else none
    | .collectorErr =>
      if s.producer = .atNewCollector then some { s with producer := .atClose } else none
    | .updateOk =>
      if s.producer = .atUpdate then some { s with producer := .atSend } else none
    | .updateErr =>
      if s.producer = .atUpdate then some { s with producer := .atSelect } else none
    | .handoff =>
      if s.producer = .atSend ∧ s.consumer = .atSelect ∧ s.closed = false then
        some { s with producer := .atSelect, handed := s.handed + 1 }
      else none
    | .sendOnClosed =>
      if s.producer = .atSend ∧ s.closed = true then
        some { s with fault := some .sendOnClosedChannel }
      else none
    | .tick =>
      if s.producer = .atSelect then some { s with producer := .atUpdate } else none
    | .producerSeesDone =>
      if s.producer = .atSelect ∧ s.cancelled = true then some { s with producer := .atClose }
      else none
    | .producerClose =>
      if s.producer = .atClose then some (closeChannel s { s with producer := .atWgDone })
      else none
    | .producerWgDone =>
      if s.producer = .atWgDone then some { s with producer := .exited } else none
    | .receiveClosed =>
      if s.consumer = .atSelect ∧ s.closed = true then some { s with handed := s.handed + 1 }
      else none
    | .consumerSeesDone =>
      if s.consumer = .atSelect ∧ s.cancelled = true then some { s with consumer := .atClose }
      else none
    | .consumerClose =>
      if s.consumer = .atClose then some (closeChannel s { s with consumer := .atWait })
      else none
    | .consumerWaitDone =>
      if s.consumer = .atWait ∧ s.producer = .exited then
        some { s with consumer := .returned }
      else none

/-- A run: the events of a schedule one after the other. -/
def run : State → List Event → Option State
  | s, [] => some s
  | s, e :: es => (step s e).bind fun s' => run s' es

/-- A schedule: one frame is handed over, then the context is cancelled while `collectStat`
waits in its `select`; `doWork2` closes the channel and waits, `collectStat` returns and the
goroutine closes the channel. -/
def cancelAfterOneFrame : List Event :=
  [.collectorOk, .updateOk, .handoff, .cancel, .consumerSeesDone, .consumerClose,
    .producerSeesDone, .producerClose]

/-- A schedule: the context is cancelled while `collectStat` is about to send its first
frame; `doWork2` closes the channel, and the send finds it closed. -/
def cancelBeforeSend : List Event :=
  [.collectorOk, .updateOk, .cancel, .consumerSeesDone, .consumerClose, .sendOnClosed]

end top

namespace stat

/-! ### The loop of `countDiskstatsUsage` -/

theorem fdiv_of_pos (a b : ℚ) (h : b > 0) : fdiv a b = .ok (a / b) := by
  have hb : b ≠ 0 := ne_of_gt h
  simp [fdiv, hb]

theorem index_of_lt {α : Type} (xs : List α) (i : Nat) (h : i < xs.length) :
    index xs i = .ok xs[i] := by
  simp [index, List.getElem?_eq_getElem h]

/-- No iteration faults: an inactive device leaves the slot alone, an active one writes
`usageRecord`. -/
theorem usageStep_eq (sValue : SValue) (p c : Diskstat) (ticks : ℚ) (s : Diskstat) :
    usageStep sValue p c ticks s =
      .ok (if c.Rcompleted + c.Wcompleted = 0 then s else usageRecord sValue p c ticks s) := by
  unfold usageStep usageRecord
  by_cases h0 : c.Rcompleted + c.Wcompleted = 0
  · simp [h0, pure, Except.pure]
  · simp only [h0, if_false]
    by_cases h1 : ((c.Rcompleted + c.Wcompleted) - (p.Rcompleted + p.Wcompleted)) > 0 <;>
    by_cases h2 : (c.Rcompleted - p.Rcompleted) > 0 <;>
    by_cases h3 : (c.Wcompleted - p.Wcompleted) > 0 <;>
    simp only [h1, h2, h3, if_true, if_false, fdiv_of_pos, bind, Except.bind, pure, Except.pure]

/-- The slot written for index `i`: the zero value for an inactive device, `usageRecord`
for an active one. -/
theorem usageLoop_spec (sValue : SValue) (prev curr : Diskstats) (ticks : ℚ) :
    ∀ (n i : Nat) (stat : Diskstats), i + n = curr.length → prev.length = curr.length →
      stat.length = curr.length →
      ∃ out, usageLoop sValue prev curr ticks n i stat = .ok out ∧
        out.length = curr.length ∧
        ∀ j p c s, prev[j]? = some p → curr[j]? = some c → stat[j]? = some s →
          out[j]? = some (if j < i then s
            else if c.Rcompleted + c.Wcompleted = 0 then s
            else usageRecord sValue p c ticks s) := by
  intro n
  induction n with
  | zero =>
    intro i stat hi hp hs
    refine ⟨stat, rfl, hs, ?_⟩
    intro j p c s _ hc hsj
    have hj : j < curr.length := (List.getElem?_eq_some.mp hc).1
    have hji : j < i := by omega
    simp [hji, hsj]
  | succ n ih =>
    intro i stat hi hp hs
    have hic : i < curr.length := by omega
    have hip : i < prev.length := by omega
    have his : i < stat.length := by omega
    obtain ⟨out, ho, hl, hget⟩ := ih (i + 1)
      (stat.set i (if curr[i].Rcompleted + curr[i].Wcompleted = 0 then stat[i]
        else usageRecord sValue prev[i] curr[i] ticks stat[i])) (by omega) hp
      (by simp [hs])
    refine ⟨out, ?_, hl, ?_⟩
    · simp only [usageLoop, index_of_lt _ _ hic, index_of_lt _ _ hip, index_of_lt _ _ his,
        usageStep_eq, bind, Except.bind]
      exact ho
    · intro j p c s hpj hcj hsj
      by_cases h2 : j = i
      · subst h2
        have e1 : prev[j] = p := by
          have := List.getElem?_eq_getElem hip
          rw [hpj] at this
          exact (Option.some.inj this).symm
        have e2 : curr[j] = c := by
          have := List.getElem?_eq_getElem hic
          rw [hcj] at this
          exact (Option.some.inj this).symm
        have e3 : stat[j] = s := by
          have := List.getElem?_eq_getElem his
          rw [hsj] at this
          exact (Option.some.inj this).symm
        have h := hget j p c
          (if c.Rcompleted + c.Wcompleted = 0 then s else usageRecord sValue p c ticks s)
          hpj hcj (by simp [List.getElem?_set, his, e1, e2, e3])
        rw [h]
        simp
      · have h4 : i ≠ j := fun h => h2 h.symm
        have h := hget j p c s hpj hcj (by rw [List.getElem?_set_ne h4]; exact hsj)
        rw [h]
        by_cases h1 : j < i
        · have h3 : j < i + 1 := by omega
          simp [h1, h3]
        · have h3 : ¬ j < i + 1 := by omega
          simp [h1, h3]

/-- With snapshots of equal length `countDiskstatsUsage` returns, without a fault, one record
per index: the zero value at an inactive index and `usageRecord` at an active one. -/
theorem countDiskstatsUsage_spec (sValue : SValue) (prev curr : Diskstats) (ticks : ℚ)
    (hlen : prev.length = curr.length) :
    ∃ out, countDiskstatsUsage sValue prev curr ticks = .ok out ∧
      out.length = curr.length ∧
      ∀ (i : Nat) (p c : Diskstat), prev[i]? = some p → curr[i]? = some c →
        out[i]? = some (if c.Rcompleted + c.Wcompleted = 0 then Diskstat.zero
          else usageRecord sValue p c ticks Diskstat.zero) := by
  obtain ⟨out, ho, hl, hget⟩ := usageLoop_spec sValue prev curr ticks curr.length 0
    (List.replicate curr.length Diskstat.zero) (by omega) hlen (by simp)
  refine ⟨out, ?_, hl, ?_⟩
  · simp only [countDiskstatsUsage, hlen, ne_eq, not_true_eq_false, if_false]
    exact ho
  · intro i p c hp hc
    have hi : i < curr.length := (List.getElem?_eq_some.mp hc).1
    have h := hget i p c Diskstat.zero hp hc (by simp [List.getElem?_replicate, hi])
    simpa using h

/-- With snapshots of equal length every record of the result at an active index is
`usageRecord` of the zero value. -/
theorem countDiskstatsUsage_active (sV : SValue) (prev curr : Diskstats) (ticks : ℚ)
    (hlen : prev.length = curr.length) :
    ∃ out, countDiskstatsUsage sV prev curr ticks = .ok out ∧
      out.length = curr.length ∧
      ∀ (i : Nat) (p c r : Diskstat), prev[i]? = some p → curr[i]? = some c →
        out[i]? = some r → c.Rcompleted + c.Wcompleted ≠ 0 →
        r = usageRecord sV p c ticks Diskstat.zero := by
  obtain ⟨out, ho, hl, hget⟩ := countDiskstatsUsage_spec sV prev curr ticks hlen
  refine ⟨out, ho, hl, ?_⟩
  intro i p c r hp hc hr hact
  have h := hget i p c hp hc
  rw [hr] at h
  simpa [hact] using h

/-! ### Claims on `countDiskstatsUsage` -/

/-- C1: when `len(curr) != len(prev)`, in particular when `curr` has one more device than
`prev`, `countDiskstatsUsage(prev, curr, ticks)` returns the empty (`nil`) result, whatever
`ticks` and the helper `sValue` are, and neither panics nor divides by zero. -/
theorem countDiskstatsUsage_length_mismatch (sV : SValue) (prev curr : Diskstats) (ticks : ℚ)
    (h : curr.length ≠ prev.length) :
    countDiskstatsUsage sV prev curr ticks = .ok [] := by
  simp [countDiskstatsUsage, h, pure, Except.pure]

/-- C1 at a concrete input: `curr` holds `sda` and `sdb`, `prev` only `sda`. -/
theorem countDiskstatsUsage_length_mismatch_witness :
    [sdaCurr, sdbIdle].length ≠ [sdaPrev].length ∧
      countDiskstatsUsage sValue [sdaPrev] [sdaCurr, sdbIdle] 100 = .ok [] :=
  ⟨by decide, countDiskstatsUsage_length_mismatch sValue [sdaPrev] [sdaCurr, sdbIdle] 100
    (by decide)⟩

/-- C2 fails as stated: with `sda` active and `sdb` inactive the result has two records, not
one, and the record at the index of `sdb` is the zero value. -/
theorem inactive_record_kept_counterexample :
    ∃ out, countDiskstatsUsage sValue [sdaPrev, sdbIdle] [sdaCurr, sdbIdle] 100 = .ok out ∧
      out.length = 2 ∧ ([sdaCurr, sdbIdle].filter isActive).length = 1 ∧
      out[1]? = some Diskstat.zero := by
  obtain ⟨out, ho, hl, hget⟩ :=
    countDiskstatsUsage_spec sValue [sdaPrev, sdbIdle] [sdaCurr, sdbIdle] 100 rfl
  refine ⟨out, ho, hl, ?_, ?_⟩
  · have a1 : isActive sdaCurr = true := by
      simp only [isActive, sdaCurr]
      norm_num
    have a2 : isActive sdbIdle = false := by
      simp only [isActive, sdbIdle]
      norm_num
    simp [List.filter, a1, a2]
  · have h := hget 1 sdbIdle sdbIdle rfl rfl
    simpa [sdbIdle] using h

/-- C2, amended: with snapshots of equal length the result has one record per index of
`curr`, and the record at an index whose device is inactive in `curr` is the zero value of
`Diskstat` (no device name, every metric 0). -/
theorem countDiskstatsUsage_inactive_slot (sV : SValue) (prev curr : Diskstats) (ticks : ℚ)
    (hlen : prev.length = curr.length) :
    ∃ out, countDiskstatsUsage sV prev curr ticks = .ok out ∧
      out.length = curr.length ∧
      ∀ (i : Nat) (c : Diskstat), curr[i]? = some c → c.Rcompleted + c.Wcompleted = 0 →
        out[i]? = some Diskstat.zero := by
  obtain ⟨out, ho, hl, hget⟩ := countDiskstatsUsage_spec sV prev curr ticks hlen
  refine ⟨out, ho, hl, ?_⟩
  intro i c hc h0
  have hi : i < prev.length := by
    rw [hlen]
    exact (List.getElem?_eq_some.mp hc).1
  have h := hget i prev[i] c (List.getElem?_eq_getElem hi) hc
  simpa [h0] using h

/-- C2, amended, at a concrete input: `sda` active, `sdb` inactive. -/
theorem countDiskstatsUsage_inactive_slot_witness :
    [sdaPrev, sdbIdle].length = [sdaCurr, sdbIdle].length ∧
    ∃ out, countDiskstatsUsage sValue [sdaPrev, sdbIdle] [sdaCurr, sdbIdle] 100 = .ok out ∧
      out.length = [sdaCurr, sdbIdle].length ∧
      ∀ (i : Nat) (c : Diskstat), [sdaCurr, sdbIdle][i]? = some c →
        c.Rcompleted + c.Wcompleted = 0 → out[i]? = some Diskstat.zero :=
  ⟨rfl, countDiskstatsUsage_inactive_slot sValue [sdaPrev, sdbIdle] [sdaCurr, sdbIdle] 100 rfl⟩

/-- C3: with snapshots of equal length `countDiskstatsUsage` returns without evaluating a
quotient by zero, and at every active index each ratio is exactly 0 when its denominator
delta is 0: `Await` and `Arqsz` for the combined completed delta, `Rawait` for the delta of
reads, `Wawait` for the delta of writes. -/
theorem countDiskstatsUsage_ratio_guard (sV : SValue) (prev curr : Diskstats) (ticks : ℚ)
    (hlen : prev.length = curr.length) :
    ∃ out, countDiskstatsUsage sV prev curr ticks = .ok out ∧
      ∀ (i : Nat) (p c r : Diskstat), prev[i]? = some p → curr[i]? = some c →
        out[i]? = some r → c.Rcompleted + c.Wcompleted ≠ 0 →
        ((c.Rcompleted + c.Wcompleted) - (p.Rcompleted + p.Wcompleted) = 0 →
          r.Await = 0 ∧ r.Arqsz = 0) ∧
        (c.Rcompleted - p.Rcompleted = 0 → r.Rawait = 0) ∧
        (c.Wcompleted - p.Wcompleted = 0 → r.Wawait = 0) := by
  obtain ⟨out, ho, _, hget⟩ := countDiskstatsUsage_active sV prev curr ticks hlen
  refine ⟨out, ho, ?_⟩
  intro i p c r hp hc hr hact
  have h := hget i p c r hp hc hr hact
  subst h
  refine ⟨?_, ?_, ?_⟩
  · intro hd
    simp [usageRecord, hd]
  · intro hd
    simp [usageRecord, hd]
  · intro hd
    simp [usageRecord, hd]

/-- C3 at a concrete input: `sda` is active and no counter moved between the samples, so
every denominator delta is 0 and the four ratios are 0. -/
theorem countDiskstatsUsage_ratio_guard_witness :
    [sdaCurr].length = [sdaCurr].length ∧
    ∃ out, countDiskstatsUsage sValue [sdaCurr] [sdaCurr] 100 = .ok out ∧
      ∀ r, out[0]? = some r → r.Await = 0 ∧ r.Arqsz = 0 ∧ r.Rawait = 0 ∧ r.Wawait = 0 := by
  refine ⟨rfl, ?_⟩
  obtain ⟨out, ho, h⟩ := countDiskstatsUsage_ratio_guard sValue [sdaCurr] [sdaCurr] 100 rfl
  refine ⟨out, ho, ?_⟩
  intro r hr
  have hact : sdaCurr.Rcompleted + sdaCurr.Wcompleted ≠ 0 := by
    simp only [sdaCurr]
    norm_num
  obtain ⟨h1, h2, h3⟩ := h 0 sdaCurr sdaCurr r rfl rfl hr hact
  exact ⟨(h1 (sub_self _)).1, (h1 (sub_self _)).2, h2 (sub_self _), h3 (sub_self _)⟩

/-- C4: with snapshots of equal length `countDiskstatsUsage` returns one record per index
of `curr`, and the record at every active index holds each average whose denominator delta is
positive as the delta of its numerator divided by the delta of its denominator: `Rawait` and
`Wawait` over the deltas of the reads and of the writes, `Await` and `Arqsz` over the delta
of the sum of both.  Guards and quotients are the expressions that the code evaluates. -/
theorem countDiskstatsUsage_ratio_of_deltas (sV : SValue) (prev curr : Diskstats) (ticks : ℚ)
    (hlen : prev.length = curr.length) :
    ∃ out, countDiskstatsUsage sV prev curr ticks = .ok out ∧
      out.length = curr.length ∧
      ∀ (i : Nat) (p c : Diskstat), prev[i]? = some p → curr[i]? = some c →
        c.Rcompleted + c.Wcompleted ≠ 0 →
        ∃ r : Diskstat, out[i]? = some r ∧
          (c.Rcompleted - p.Rcompleted > 0 →
            r.Rawait = (c.Rspent - p.Rspent) / (c.Rcompleted - p.Rcompleted)) ∧
          (c.Wcompleted - p.Wcompleted > 0 →
            r.Wawait = (c.Wspent - p.Wspent) / (c.Wcompleted - p.Wcompleted)) ∧
          ((c.Rcompleted + c.Wcompleted) - (p.Rcompleted + p.Wcompleted) > 0 →
            r.Await = ((c.Rspent - p.Rspent) + (c.Wspent - p.Wspent)) /
                ((c.Rcompleted + c.Wcompleted) - (p.Rcompleted + p.Wcompleted)) ∧
            r.Arqsz = ((c.Rsectors - p.Rsectors) + (c.Wsectors - p.Wsectors)) /
                ((c.Rcompleted + c.Wcompleted) - (p.Rcompleted + p.Wcompleted))) := by
  obtain ⟨out, ho, hl, hget⟩ := countDiskstatsUsage_spec sV prev curr ticks hlen
  refine ⟨out, ho, hl, ?_⟩
  intro i p c hp hc hact
  have h := hget i p c hp hc
  rw [if_neg hact] at h
  refine ⟨_, h, ?_, ?_, ?_⟩
  · intro hd
    simp [usageRecord, hd]
  · intro hd
    simp [usageRecord, hd]
  · intro hd
    simp [usageRecord, hd]

/-- C4 at the end-to-end example: reads 100 to 150, writes 50 to 80, read time 1000 to 1800,
write time 500 to 740, sectors read 4000 to 5600 and written 2000 to 2800 give one record,
with `Rawait = 16`, `Wawait = 8`, `Await = 13` and `Arqsz = 30`. -/
theorem countDiskstatsUsage_ratio_of_deltas_witness :
    [sdaPrev].length = [sdaCurr].length ∧
    ∃ out, countDiskstatsUsage sValue [sdaPrev] [sdaCurr] 100 = .ok out ∧
      out.length = 1 ∧
      ∃ r : Diskstat, out[0]? = some r ∧
        r.Rawait = 16 ∧ r.Wawait = 8 ∧ r.Await = 13 ∧ r.Arqsz = 30 := by
  refine ⟨rfl, ?_⟩
  obtain ⟨out, ho, hl, h⟩ :=
    countDiskstatsUsage_ratio_of_deltas sValue [sdaPrev] [sdaCurr] 100 rfl
  refine ⟨out, ho, hl, ?_⟩
  have hact : sdaCurr.Rcompleted + sdaCurr.Wcompleted ≠ 0 := by
    simp only [sdaCurr]
    norm_num
  obtain ⟨r, hr, h1, h2, h3⟩ := h 0 sdaPrev sdaCurr rfl rfl hact
  have g1 : sdaCurr.Rcompleted - sdaPrev.Rcompleted > 0 := by
    simp only [sdaCurr, sdaPrev]
    norm_num
  have g2 : sdaCurr.Wcompleted - sdaPrev.Wcompleted > 0 := by
    simp only [sdaCurr, sdaPrev]
    norm_num
  have g3 : (sdaCurr.Rcompleted + sdaCurr.Wcompleted) -
      (sdaPrev.Rcompleted + sdaPrev.Wcompleted) > 0 := by
    simp only [sdaCurr, sdaPrev]
    norm_num
  refine ⟨r, hr, ?_, ?_, ?_, ?_⟩
  · rw [h1 g1]
    simp only [sdaCurr, sdaPrev]
    norm_num
  · rw [h2 g2]
    simp only [sdaCurr, sdaPrev]
    norm_num
  · rw [(h3 g3).1]
    simp only [sdaCurr, sdaPrev]
    norm_num
  · rw [(h3 g3).2]
    simp only [sdaCurr, sdaPrev]
    norm_num

/-- C5 fails as stated: in the end-to-end example the combined completed delta is 80, and
the field `Completed` of the record is 230, the cumulative count of `curr`. -/
theorem completed_is_cumulative_counterexample :
    ∃ out, countDiskstatsUsage sValue [sdaPrev] [sdaCurr] 100 = .ok out ∧
      ∃ r, out[0]? = some r ∧ r.Completed = 230 ∧ r.Completed ≠ 80 ∧
        (sdaCurr.Rcompleted + sdaCurr.Wcompleted) -
          (sdaPrev.Rcompleted + sdaPrev.Wcompleted) = 80 := by
  obtain ⟨out, ho, _, hget⟩ := countDiskstatsUsage_spec sValue [sdaPrev] [sdaCurr] 100 rfl
  have hact : sdaCurr.Rcompleted + sdaCurr.Wcompleted ≠ 0 := by
    simp only [sdaCurr]
    norm_num
  have h := hget 0 sdaPrev sdaCurr rfl rfl
  rw [if_neg hact] at h
  refine ⟨out, ho, _, h, ?_, ?_, ?_⟩
  · simp only [usageRecord, sdaCurr]
    norm_num
  · simp only [usageRecord, sdaCurr]
    norm_num
  · simp only [sdaCurr, sdaPrev]
    norm_num

/-- C5, amended: with snapshots of equal length, at every active index the field `Completed`
of the record is the cumulative count of completed operations of `curr`,
`curr.Rcompleted + curr.Wcompleted`; `prev` has no part in it. -/
theorem countDiskstatsUsage_completed (sV : SValue) (prev curr : Diskstats) (ticks : ℚ)
    (hlen : prev.length = curr.length) :
    ∃ out, countDiskstatsUsage sV prev curr ticks = .ok out ∧
      ∀ (i : Nat) (p c r : Diskstat), prev[i]? = some p → curr[i]? = some c →
        out[i]? = some r → c.Rcompleted + c.Wcompleted ≠ 0 →
        r.Completed = c.Rcompleted + c.Wcompleted := by
  obtain ⟨out, ho, _, hget⟩ := countDiskstatsUsage_active sV prev curr ticks hlen
  refine ⟨out, ho, ?_⟩
  intro i p c r hp hc hr hact
  have h := hget i p c r hp hc hr hact
  subst h
  rfl

/-- C5, amended, at the end-to-end example: `Completed` is 150 + 80. -/
theorem countDiskstatsUsage_completed_witness :
    [sdaPrev].length = [sdaCurr].length ∧
    ∃ out, countDiskstatsUsage sValue [sdaPrev] [sdaCurr] 100 = .ok out ∧
      ∀ r, out[0]? = some r → r.Completed = 150 + 80 := by
  refine ⟨rfl, ?_⟩
  obtain ⟨out, ho, h⟩ := countDiskstatsUsage_completed sValue [sdaPrev] [sdaCurr] 100 rfl
  refine ⟨out, ho, ?_⟩
  intro r hr
  have hact : sdaCurr.Rcompleted + sdaCurr.Wcompleted ≠ 0 := by
    simp only [sdaCurr]
    norm_num
  rw [h 0 sdaPrev sdaCurr r rfl rfl hr hact]
  simp only [sdaCurr]

/-- The modelled `sValue` of an unchanged counter is 0. -/
theorem sValue_self (x itv ticks : ℚ) : sValue x x itv ticks = 0 := by
  simp [sValue]

/-- C10: with snapshots of equal length, at every active index at which each of the ten
cumulative counters of `curr` equals that of `prev`, the rate and ratio metrics of the record
are all exactly 0; the rates are those of the `sValue` modelled from the spec. -/
theorem countDiskstatsUsage_zero_change (prev curr : Diskstats) (ticks : ℚ)
    (hlen : prev.length = curr.length) :
    ∃ out, countDiskstatsUsage sValue prev curr ticks = .ok out ∧
      ∀ (i : Nat) (p c r : Diskstat), prev[i]? = some p → curr[i]? = some c →
        out[i]? = some r → c.Rcompleted + c.Wcompleted ≠ 0 →
        (c.Rcompleted = p.Rcompleted ∧ c.Rmerged = p.Rmerged ∧ c.Rsectors = p.Rsectors ∧
          c.Rspent = p.Rspent ∧ c.Wcompleted = p.Wcompleted ∧ c.Wmerged = p.Wmerged ∧
          c.Wsectors = p.Wsectors ∧ c.Wspent = p.Wspent ∧ c.Tspent = p.Tspent ∧
          c.Tweighted = p.Tweighted) →
        r.Util = 0 ∧ r.Await = 0 ∧ r.Arqsz = 0 ∧ r.Rawait = 0 ∧ r.Wawait = 0 ∧
          r.Rmerged = 0 ∧ r.Wmerged = 0 ∧ r.Rcompleted = 0 ∧ r.Wcompleted = 0 ∧
          r.Rsectors = 0 ∧ r.Wsectors = 0 ∧ r.Tweighted = 0 := by
  obtain ⟨out, ho, _, hget⟩ := countDiskstatsUsage_active sValue prev curr ticks hlen
  refine ⟨out, ho, ?_⟩
  intro i p c r hp hc hr hact heq
  obtain ⟨e1, e2, e3, e4, e5, e6, e7, e8, e9, e10⟩ := heq
  have h := hget i p c r hp hc hr hact
  subst h
  simp [usageRecord, e1, e2, e3, e4, e5, e6, e7, e8, e9, e10, sValue_self]

/-- C10 at a concrete input: `sda` sampled twice ten seconds apart with no counter moved. -/
theorem countDiskstatsUsage_zero_change_witness :
    [sdaCurr].length = [sdaLater].length ∧
    ∃ out, countDiskstatsUsage sValue [sdaCurr] [sdaLater] 100 = .ok out ∧
      ∀ r, out[0]? = some r →
        r.Util = 0 ∧ r.Await = 0 ∧ r.Arqsz = 0 ∧ r.Rawait = 0 ∧ r.Wawait = 0 ∧
          r.Rmerged = 0 ∧ r.Wmerged = 0 ∧ r.Rcompleted = 0 ∧ r.Wcompleted = 0 ∧
          r.Rsectors = 0 ∧ r.Wsectors = 0 ∧ r.Tweighted = 0 := by
  refine ⟨rfl, ?_⟩
  obtain ⟨out, ho, h⟩ := countDiskstatsUsage_zero_change [sdaCurr] [sdaLater] 100 rfl
  refine ⟨out, ho, ?_⟩
  intro r hr
  have hact : sdaLater.Rcompleted + sdaLater.Wcompleted ≠ 0 := by
    simp only [sdaLater, sdaCurr]
    norm_num
  exact h 0 sdaCurr sdaLater r rfl rfl hr hact
    ⟨rfl, rfl, rfl, rfl, rfl, rfl, rfl, rfl, rfl, rfl⟩

end stat

namespace view

/-! ### The map operations and the two loops of `Configure` -/

theorem Views.get_nil (k : String) : Views.get [] k = none := rfl

theorem Views.get_cons (k0 : String) (w0 : View) (rest : Views) (k : String) :
    Views.get ((k0, w0) :: rest) k = if k = k0 then some w0 else Views.get rest k := by
  by_cases h : k = k0
  · simp [Views.get, List.lookup, h]
  · have hb : (k == k0) = false := by simpa using h
    simp [Views.get, List.lookup, h, hb]

theorem Views.get_set (v : Views) (k : String) (w : View) (k' : String) :
    (v.set k w).get k' = if k' = k then some w else v.get k' := by
  induction v with
  | nil => simp [Views.set, Views.get_cons, Views.get_nil]
  | cons e rest ih =>
    obtain ⟨k0, w0⟩ := e
    by_cases h0 : k0 = k
    · subst h0
      simp only [Views.set, if_true, Views.get_cons]
      by_cases h1 : k' = k0 <;> simp [h1]
    · simp only [Views.set, h0, if_false, Views.get_cons, ih]
      by_cases h1 : k' = k0
      · have h2 : k' ≠ k := fun h => h0 (h1.symm.trans h)
        simp [h1, h0]
      · simp [h1]

theorem Views.mem_keys_of_get (v : Views) (k : String) (w : View) (h : v.get k = some w) :
    k ∈ v.keys := by
  induction v with
  | nil => simp [Views.get_nil] at h
  | cons e rest ih =>
    obtain ⟨k0, w0⟩ := e
    rw [Views.get_cons] at h
    by_cases h1 : k = k0
    · simp [Views.keys, h1]
    · simp only [h1, if_false] at h
      have := ih h
      simp only [Views.keys, List.map_cons, List.mem_cons]
      exact Or.inr this

/-- The first loop touches no entry but that of the key it visits. -/
theorem configureView_get_ne {Options : Type} (q : QueryPkg Options) (version : Int)
    (track : Bool) (k : String) (view : View) (v : Views) (k' : String) (h : k' ≠ k) :
    (configureView q version track k view v).get k' = v.get k' := by
  unfold configureView
  split_ifs <;> simp [Views.get_set, h]

/-- The entry that a visit leaves at its own key depends on the map through that entry
only. -/
theorem configureView_get_congr {Options : Type} (q : QueryPkg Options) (version : Int)
    (track : Bool) (k : String) (view : View) (v v' : Views) (h : v.get k = v'.get k) :
    (configureView q version track k view v).get k =
      (configureView q version track k view v').get k := by
  unfold configureView
  split_ifs <;> simp [Views.get_set, h]

theorem selectLoop_get_not_mem {Options : Type} (q : QueryPkg Options) (version : Int)
    (track : Bool) (k : String) :
    ∀ (keys : List String) (v : Views), k ∉ keys →
      (selectLoop q version track keys v).get k = v.get k := by
  intro keys
  induction keys with
  | nil => intro v _; rfl
  | cons k0 rest ih =>
    intro v hk
    have h0 : k ≠ k0 := fun h => hk (by simp [h])
    have hr : k ∉ rest := fun h => hk (by simp [h])
    cases hg : v.get k0 with
    | none => simp only [selectLoop, hg]; exact ih v hr
    | some view0 =>
      simp only [selectLoop, hg]
      rw [ih _ hr, configureView_get_ne q version track k0 view0 v k h0]

/-- After the first loop the entry of a visited key is the one its own visit wrote. -/
theorem selectLoop_get_mem {Options : Type} (q : QueryPkg Options) (version : Int)
    (track : Bool) (k : String) (view : View) :
    ∀ (keys : List String) (v : Views), keys.Nodup → k ∈ keys → v.get k = some view →
      (selectLoop q version track keys v).get k =
        (configureView q version track k view v).get k := by
  intro keys
  induction keys with
  | nil => intro v _ hk _; simp at hk
  | cons k0 rest ih =>
    intro v hnd hk hv
    have hnd' := List.nodup_cons.mp hnd
    by_cases h0 : k = k0
    · subst h0
      simp only [selectLoop, hv]
      exact selectLoop_get_not_mem q version track k rest _ hnd'.1
    · have hr : k ∈ rest := by
        rcases List.mem_cons.mp hk with h | h
        · exact absurd h h0
        · exact h
      cases hg : v.get k0 with
      | none => simp only [selectLoop, hg]; exact ih v hnd'.2 hr hv
      | some view0 =>
        simp only [selectLoop, hg]
        have hfr := configureView_get_ne q version track k0 view0 v k h0
        rw [ih _ hnd'.2 hr (hfr.trans hv)]
        exact configureView_get_congr q version track k view _ _ hfr

/-- The second loop changes nothing of a view but its query text. -/
theorem formatLoop_get {Options : Type} (q : QueryPkg Options) (opts : Options) (k : String) :
    ∀ (keys : List String) (v : Views),
      ((formatLoop q opts keys v).2.get k).map View.eraseQuery =
        (v.get k).map View.eraseQuery := by
  intro keys
  induction keys with
  | nil => intro v; rfl
  | cons k0 rest ih =>
    intro v
    cases hg : v.get k0 with
    | none => simp only [formatLoop, hg]; exact ih v
    | some view0 =>
      cases hf : q.Format view0.QueryTmpl opts with
      | error err => simp only [formatLoop, hg, hf]
      | ok text =>
        simp only [formatLoop, hg, hf]
        rw [ih, Views.get_set]
        by_cases h0 : k = k0
        · subst h0
          simp [hg, View.eraseQuery]
        · simp [h0]

/-- If the template of some entry fails to expand, the second loop returns an error that
`Format` gave for the template of an entry. -/
theorem formatLoop_error {Options : Type} (q : QueryPkg Options) (opts : Options) :
    ∀ (keys : List String) (v : Views),
      (∃ k view err, k ∈ keys ∧ v.get k = some view ∧
        q.Format view.QueryTmpl opts = .error err) →
      ∃ e k' view', v.get k' = some view' ∧ q.Format view'.QueryTmpl opts = .error e ∧
        (formatLoop q opts keys v).1 = some e := by
  intro keys
  induction keys with
  | nil =>
    intro v h
    obtain ⟨k, _, _, hk, _⟩ := h
    simp at hk
  | cons k0 rest ih =>
    intro v h
    obtain ⟨k, view, err, hk, hv, hf⟩ := h
    cases hg : v.get k0 with
    | none =>
      have h0 : k ≠ k0 := by
        intro h
        rw [h, hg] at hv
        simp at hv
      have hr : k ∈ rest := by
        rcases List.mem_cons.mp hk with h | h
        · exact absurd h h0
        · exact h
      simp only [formatLoop, hg]
      exact ih v ⟨k, view, err, hr, hv, hf⟩
    | some view0 =>
      cases hf0 : q.Format view0.QueryTmpl opts with
      | error e0 =>
        refine ⟨e0, k0, view0, hg, hf0, ?_⟩
        simp only [formatLoop, hg, hf0]
      | ok text =>
        have h0 : k ≠ k0 := by
          intro h
          rw [h, hg] at hv
          have hvv : view0 = view := Option.some.inj hv
          rw [hvv, hf] at hf0
          simp at hf0
        have hr : k ∈ rest := by
          rcases List.mem_cons.mp hk with h | h
          · exact absurd h h0
          · exact h
        have hv' : (v.set k0 { view0 with Query := text }).get k = some view := by
          rw [Views.get_set]
          simp [h0, hv]
        obtain ⟨e, k', view', hv1, hf1, hres⟩ := ih _ ⟨k, view, err, hr, hv', hf⟩
        simp only [formatLoop, hg, hf0]
        rw [Views.get_set] at hv1
        by_cases h1 : k' = k0
        · simp only [h1, if_true] at hv1
          have hvv : view' = { view0 with Query := text } := (Option.some.inj hv1).symm
          rw [hvv] at hf1
          exact ⟨e, k0, view0, hg, hf1, hres⟩
        · simp only [h1, if_false] at hv1
          exact ⟨e, k', view', hv1, hf1, hres⟩

/-- A projection of a view that does not look at the query text has the same value on two
entries that agree up to the query text. -/
theorem map_of_eraseQuery {α : Type} (f : View → α) (hf : ∀ w, f w.eraseQuery = f w)
    (a b : Option View) (h : a.map View.eraseQuery = b.map View.eraseQuery) :
    a.map f = b.map f := by
  have h2 := congrArg (Option.map f) h
  simp only [Option.map_map] at h2
  have hfe : f ∘ View.eraseQuery = f := funext hf
  rw [hfe] at h2
  exact h2

/-- After `Configure`, whether it returns an error or not, a view of a map with distinct keys
is, up to its query text, the one that the visit of the first loop wrote from the entry
before the call. -/
theorem Configure_get {Options : Type} (q : QueryPkg Options) (version : Int)
    (recovery track app : String) (v : Views) (k : String) (view : View)
    (hnd : v.keys.Nodup) (hv : v.get k = some view) :
    ((Configure q version recovery track app v).2.get k).map View.eraseQuery =
      ((configureView q version (decide (track = "on")) k view v).get k).map
        View.eraseQuery := by
  unfold Configure
  simp only []
  rw [formatLoop_get]
  rw [selectLoop_get_mem q version _ k view v.keys v hnd (Views.mem_keys_of_get v k view hv) hv]

theorem New_keys_nodup {Options : Type} (q : QueryPkg Options) : (New q).keys.Nodup := by
  simp [New, Views.keys]

/-- A `Configure` that succeeds: with an expansion that accepts every template the returned
error is `nil` and the `activity` view holds the text of its template. -/
theorem Configure_okQuery :
    (Configure okQuery 90600 "f" "on" "pgcenter" (New okQuery)).1 = none ∧
      ((Configure okQuery 90600 "f" "on" "pgcenter" (New okQuery)).2.get "activity").map
        (fun w => (w.QueryTmpl, w.Ncols, w.Query)) =
        some ("PgStatActivity96", 13, "PgStatActivity96") := by
  refine ⟨by decide, by decide⟩

/-! ### Claims on `Configure` -/

/-- C6: for the `activity` view of `New()`, `Configure` leaves template `PgStatActivity95`
with 12 columns when `version < 90600`, `PgStatActivity96` with 13 columns when
`90600 <= version < 100000`, and the defaults `PgStatActivityDefault` with 14 columns from
100000 on, whatever the recovery, track-commit-timestamp and app arguments are (and whether
the expansion succeeds or not); so 90599, 90600, 99999 and 100000 select (Activity95, 12),
(Activity96, 13), (Activity96, 13) and (Default, 14). -/
theorem Configure_activity {Options : Type} (q : QueryPkg Options)
    (recovery track app : String) :
    (∀ version : Int,
      ((Configure q version recovery track app (New q)).2.get "activity").map
          (fun w => (w.QueryTmpl, w.Ncols)) =
        some (if version < 90600 then (q.PgStatActivity95, 12)
          else if version < 100000 then (q.PgStatActivity96, 13)
          else (q.PgStatActivityDefault, 14))) ∧
    ((Configure q 90599 recovery track app (New q)).2.get "activity").map
        (fun w => (w.QueryTmpl, w.Ncols)) = some (q.PgStatActivity95, 12) ∧
    ((Configure q 90600 recovery track app (New q)).2.get "activity").map
        (fun w => (w.QueryTmpl, w.Ncols)) = some (q.PgStatActivity96, 13) ∧
    ((Configure q 99999 recovery track app (New q)).2.get "activity").map
        (fun w => (w.QueryTmpl, w.Ncols)) = some (q.PgStatActivity96, 13) ∧
    ((Configure q 100000 recovery track app (New q)).2.get "activity").map
        (fun w => (w.QueryTmpl, w.Ncols)) = some (q.PgStatActivityDefault, 14) := by
  have hv : (New q).get "activity" = some
      { Name := "activity", QueryTmpl := q.PgStatActivityDefault, DiffIntvl := (0, 0),
        Ncols := 14, OrderKey := 0, OrderDesc := true, ColsWidth := [],
        Msg := "Show activity statistics", Filters := [] } := by
    simp [New, Views.get_cons]
  have key : ∀ version : Int,
      ((Configure q version recovery track app (New q)).2.get "activity").map
          (fun w => (w.QueryTmpl, w.Ncols)) =
        some (if version < 90600 then (q.PgStatActivity95, 12)
          else if version < 100000 then (q.PgStatActivity96, 13)
          else (q.PgStatActivityDefault, 14)) := by
    intro version
    rw [map_of_eraseQuery (fun w => (w.QueryTmpl, w.Ncols)) (fun _ => rfl) _ _
      (Configure_get q version recovery track app (New q) "activity" _ (New_keys_nodup q) hv)]
    simp only [configureView, if_true]
    split_ifs <;> simp [Views.get_set, hv]
  refine ⟨key, ?_, ?_, ?_, ?_⟩
  · rw [key]; simp
  · rw [key]; simp
  · rw [key]; simp
  · rw [key]; simp

/-- C8: for the `databases` view of `New()`, `Configure` replaces template, column count and
diff bounds together when `version < 120000` (`PgStatDatabase11`, 17, [1,15]) and keeps all
three defaults otherwise (`PgStatDatabaseDefault`, 18, [1,16]); no version gives a mix. -/
theorem Configure_databases {Options : Type} (q : QueryPkg Options) (version : Int)
    (recovery track app : String) :
    ((Configure q version recovery track app (New q)).2.get "databases").map
        (fun w => (w.QueryTmpl, w.Ncols, w.DiffIntvl)) =
      some (if version < 120000 then (q.PgStatDatabase11, 17, (1, 15))
        else (q.PgStatDatabaseDefault, 18, (1, 16))) := by
  have hv : (New q).get "databases" = some
      { Name := "databases", QueryTmpl := q.PgStatDatabaseDefault, DiffIntvl := (1, 16),
        Ncols := 18, OrderKey := 0, OrderDesc := true, ColsWidth := [],
        Msg := "Show databases statistics", Filters := [] } := by
    simp [New, Views.get_cons]
  rw [map_of_eraseQuery (fun w => (w.QueryTmpl, w.Ncols, w.DiffIntvl)) (fun _ => rfl) _ _
    (Configure_get q version recovery track app (New q) "databases" _ (New_keys_nodup q) hv)]
  simp only [configureView]
  split_ifs <;> simp_all [Views.get_set]

/-- C9: for the `replication` view of `New()`, `Configure` takes the first matching
breakpoint in ascending order: below 90500 `PgStatReplication96` with 12 columns whatever
the setting; from 90500 and below 100000 `PgStatReplication96Extended` with 14 columns when
the setting is exactly "on" and `PgStatReplication96` with 12 otherwise; from 100000 on
`PgStatReplicationExtended` with 17 columns when the setting is "on" and the defaults
`PgStatReplicationDefault` with 15 otherwise. -/
theorem Configure_replication {Options : Type} (q : QueryPkg Options) (version : Int)
    (recovery track app : String) :
    ((Configure q version recovery track app (New q)).2.get "replication").map
        (fun w => (w.QueryTmpl, w.Ncols)) =
      some (if version < 90500 then (q.PgStatReplication96, 12)
        else if version < 100000 then
          (if track = "on" then (q.PgStatReplication96Extended, 14)
            else (q.PgStatReplication96, 12))
        else
          (if track = "on" then (q.PgStatReplicationExtended, 17)
            else (q.PgStatReplicationDefault, 15))) := by
  have hv : (New q).get "replication" = some
      { Name := "replication", QueryTmpl := q.PgStatReplicationDefault, DiffIntvl := (6, 6),
        Ncols := 15, OrderKey := 0, OrderDesc := true, ColsWidth := [],
        Msg := "Show replication statistics", Filters := [] } := by
    simp [New, Views.get_cons]
  rw [map_of_eraseQuery (fun w => (w.QueryTmpl, w.Ncols)) (fun _ => rfl) _ _
    (Configure_get q version recovery track app (New q) "replication" _ (New_keys_nodup q) hv)]
  simp only [configureView]
  split_ifs <;> simp_all [Views.get_set]

/-- C7 fails as stated: with PostgreSQL 9.0 and a `Format` that fails on the template of the
`tables` view, `Configure` returns the error, and the `databases` view, which was
(`PgStatDatabaseDefault`, 18, [1,16]) with an empty query text before the call, is
(`PgStatDatabase11`, 17, [1,15]) with the expanded text after it. -/
theorem Configure_not_atomic_counterexample :
    (Configure failingQuery 90000 "f" "off" "pgcenter" (New failingQuery)).1 =
        some "template: bad placeholder" ∧
      ((New failingQuery).get "databases").map
          (fun w => (w.QueryTmpl, w.Ncols, w.DiffIntvl, w.Query)) =
        some ("PgStatDatabaseDefault", 18, (1, 16), "") ∧
      ((Configure failingQuery 90000 "f" "off" "pgcenter" (New failingQuery)).2.get
          "databases").map (fun w => (w.QueryTmpl, w.Ncols, w.DiffIntvl, w.Query)) =
        some ("PgStatDatabase11", 17, (1, 15), "PgStatDatabase11") ∧
      (Configure failingQuery 90000 "f" "off" "pgcenter" (New failingQuery)).2 ≠
        New failingQuery := by
  refine ⟨by decide, by decide, by decide, by decide⟩

/-- C7, amended: if `Format` fails for the template that the variant selection left in at
least one view, `Configure` returns an error that `Format` gave for the template of one of
the views; the map is not restored: every view is left as the variant selection of this call
made it, up to its query text. -/
theorem Configure_failure {Options : Type} (q : QueryPkg Options) (version : Int)
    (recovery track app : String) (v : Views)
    (hfail : ∃ k view err,
      (selectLoop q version (decide (track = "on")) v.keys v).get k = some view ∧
      q.Format view.QueryTmpl (q.OptionsConfigure version recovery app) = .error err) :
    (∃ e k' view',
      (selectLoop q version (decide (track = "on")) v.keys v).get k' = some view' ∧
      q.Format view'.QueryTmpl (q.OptionsConfigure version recovery app) = .error e ∧
      (Configure q version recovery track app v).1 = some e) ∧
    ∀ k, ((Configure q version recovery track app v).2.get k).map View.eraseQuery =
      ((selectLoop q version (decide (track = "on")) v.keys v).get k).map
        View.eraseQuery := by
  obtain ⟨k, view, err, hv, hf⟩ := hfail
  constructor
  · exact formatLoop_error q (q.OptionsConfigure version recovery app) _ _
      ⟨k, view, err, Views.mem_keys_of_get _ k view hv, hv, hf⟩
  · intro k'
    exact formatLoop_get q (q.OptionsConfigure version recovery app) k' _ _

/-- C7, amended, at a concrete input: PostgreSQL 9.0 and a `Format` that fails on the
template of the `tables` view. -/
theorem Configure_failure_witness :
    (∃ k view err,
      (selectLoop failingQuery 90000 (decide ("off" = "on")) (New failingQuery).keys
        (New failingQuery)).get k = some view ∧
      failingQuery.Format view.QueryTmpl (failingQuery.OptionsConfigure 90000 "f" "pgcenter") =
        .error err) ∧
    (∃ e k' view',
      (selectLoop failingQuery 90000 (decide ("off" = "on")) (New failingQuery).keys
        (New failingQuery)).get k' = some view' ∧
      failingQuery.Format view'.QueryTmpl (failingQuery.OptionsConfigure 90000 "f" "pgcenter") =
        .error e ∧
      (Configure failingQuery 90000 "f" "off" "pgcenter" (New failingQuery)).1 = some e) ∧
    ∀ k, ((Configure failingQuery 90000 "f" "off" "pgcenter" (New failingQuery)).2.get k).map
        View.eraseQuery =
      ((selectLoop failingQuery 90000 (decide ("off" = "on")) (New failingQuery).keys
        (New failingQuery)).get k).map View.eraseQuery :=
  have h : ∃ k view err,
      (selectLoop failingQuery 90000 (decide ("off" = "on")) (New failingQuery).keys
        (New failingQuery)).get k = some view ∧
      failingQuery.Format view.QueryTmpl (failingQuery.OptionsConfigure 90000 "f" "pgcenter") =
        .error err :=
    ⟨"tables",
      { Name := "tables", QueryTmpl := "PgStatTablesDefault", DiffIntvl := (1, 18),
        Ncols := 19, OrderKey := 0, OrderDesc := true, ColsWidth := [],
        Msg := "Show tables statistics", Filters := [] },
      "template: bad placeholder", by decide, rfl⟩
  ⟨h, Configure_failure failingQuery 90000 "f" "off" "pgcenter" (New failingQuery) h⟩

end view

namespace stat

/-! ### Signs of the metrics -/

/-- The modelled `sValue` is never negative when `ticks` is not. -/
theorem sValue_nonneg (prev curr itv ticks : ℚ) (ht : 0 ≤ ticks) :
    0 ≤ sValue prev curr itv ticks := by
  unfold sValue
  split
  · rename_i h
    exact div_nonneg (div_nonneg (sub_nonneg.mpr (le_of_lt h.2)) (le_of_lt h.1)) ht
  · exact le_refl 0

/-- The modelled `sValue` divides by `ticks`: a negative `ticks` gives a negative rate. -/
theorem sValue_negative_ticks : sValue 100 150 10 (-100) < 0 := by
  simp only [sValue]
  norm_num

/-- With snapshots of equal length every record of the result, at an active index or not, is
the zero value or `usageRecord` of the zero value. -/
theorem countDiskstatsUsage_record (sV : SValue) (prev curr : Diskstats) (ticks : ℚ)
    (hlen : prev.length = curr.length) :
    ∃ out, countDiskstatsUsage sV prev curr ticks = .ok out ∧
      ∀ (i : Nat) (p c r : Diskstat), prev[i]? = some p → curr[i]? = some c →
        out[i]? = some r →
        r = Diskstat.zero ∨ r = usageRecord sV p c ticks Diskstat.zero := by
  obtain ⟨out, ho, _, hget⟩ := countDiskstatsUsage_spec sV prev curr ticks hlen
  refine ⟨out, ho, ?_⟩
  intro i p c r hp hc hr
  have h := hget i p c hp hc
  rw [hr] at h
  have h2 := Option.some.inj h
  by_cases h0 : c.Rcompleted + c.Wcompleted = 0
  · left
    simpa [h0] using h2
  · right
    simpa [h0] using h2

/-- C11 fails as stated: the read-time counter of `sda` went backwards, from 1000 to 500,
while 50 more reads completed, and the record has `Rawait = -10` and `Await = -13/4`. -/
theorem negative_await_counterexample :
    ∃ out, countDiskstatsUsage sValue [sdaPrev] [sdaReadTimeReset] 100 = .ok out ∧
      ∃ r : Diskstat, out[0]? = some r ∧ r.Rawait = (-10 : ℚ) ∧ r.Rawait < 0 ∧
        r.Await = (-13 / 4 : ℚ) ∧ r.Await < 0 := by
  obtain ⟨out, ho, _, hget⟩ :=
    countDiskstatsUsage_spec sValue [sdaPrev] [sdaReadTimeReset] 100 rfl
  have hact : sdaReadTimeReset.Rcompleted + sdaReadTimeReset.Wcompleted ≠ 0 := by
    simp only [sdaReadTimeReset, sdaCurr]
    norm_num
  have h := hget 0 sdaPrev sdaReadTimeReset rfl rfl
  rw [if_neg hact] at h
  refine ⟨out, ho, _, h, ?_, ?_, ?_, ?_⟩ <;>
    simp only [usageRecord, sdaReadTimeReset, sdaCurr, sdaPrev] <;> norm_num

/-- C11, amended: with snapshots of equal length and `ticks >= 0`, at every index the
`sValue`-based rates are not negative (the rates are those of the `sValue` modelled from the
spec); a ratio whose denominator counter went backwards or stood still is 0; and a ratio is
not negative whenever the delta of its numerator is not: `Rawait` for the read time,
`Wawait` for the write time, `Await` for their sum, `Arqsz` for the sectors. -/
theorem countDiskstatsUsage_nonneg (prev curr : Diskstats) (ticks : ℚ)
    (hlen : prev.length = curr.length) (ht : 0 ≤ ticks) :
    ∃ out, countDiskstatsUsage sValue prev curr ticks = .ok out ∧
      ∀ (i : Nat) (p c r : Diskstat), prev[i]? = some p → curr[i]? = some c →
        out[i]? = some r →
        (0 ≤ r.Util ∧ 0 ≤ r.Rmerged ∧ 0 ≤ r.Wmerged ∧ 0 ≤ r.Rcompleted ∧ 0 ≤ r.Wcompleted ∧
          0 ≤ r.Rsectors ∧ 0 ≤ r.Wsectors ∧ 0 ≤ r.Tweighted) ∧
        (c.Rcompleted ≤ p.Rcompleted → r.Rawait = 0) ∧
        (c.Wcompleted ≤ p.Wcompleted → r.Wawait = 0) ∧
        (c.Rcompleted + c.Wcompleted ≤ p.Rcompleted + p.Wcompleted →
          r.Await = 0 ∧ r.Arqsz = 0) ∧
        (p.Rspent ≤ c.Rspent → 0 ≤ r.Rawait) ∧
        (p.Wspent ≤ c.Wspent → 0 ≤ r.Wawait) ∧
        (0 ≤ (c.Rspent - p.Rspent) + (c.Wspent - p.Wspent) → 0 ≤ r.Await) ∧
        (0 ≤ (c.Rsectors - p.Rsectors) + (c.Wsectors - p.Wsectors) → 0 ≤ r.Arqsz) := by
  obtain ⟨out, ho, hrec⟩ := countDiskstatsUsage_record sValue prev curr ticks hlen
  refine ⟨out, ho, ?_⟩
  intro i p c r hp hc hr
  rcases hrec i p c r hp hc hr with h | h
  · subst h
    simp [Diskstat.zero]
  · subst h
    have hs : ∀ a b, 0 ≤ sValue a b (c.Uptime - p.Uptime) ticks :=
      fun a b => sValue_nonneg a b _ ticks ht
    refine ⟨⟨?_, ?_, ?_, ?_, ?_, ?_, ?_, ?_⟩, ?_, ?_, ?_, ?_, ?_, ?_, ?_⟩
    · exact div_nonneg (hs _ _) (by norm_num)
    · exact hs _ _
    · exact hs _ _
    · exact hs _ _
    · exact hs _ _
    · exact div_nonneg (hs _ _) (by norm_num)
    · exact div_nonneg (hs _ _) (by norm_num)
    · exact div_nonneg (hs _ _) (by norm_num)
    · intro hd
      have hn : ¬ (c.Rcompleted - p.Rcompleted > 0) := by
        intro h
        linarith
      simp only [usageRecord, hn, if_false]
    · intro hd
      have hn : ¬ (c.Wcompleted - p.Wcompleted > 0) := by
        intro h
        linarith
      simp only [usageRecord, hn, if_false]
    · intro hd
      have hn : ¬ ((c.Rcompleted + c.Wcompleted) - (p.Rcompleted + p.Wcompleted) > 0) := by
        intro h
        linarith
      simp only [usageRecord, hn, if_false, and_self]
    · intro hd
      simp only [usageRecord]
      split
      · rename_i hg
        exact div_nonneg (sub_nonneg.mpr hd) (le_of_lt hg)
      · exact le_refl 0
    · intro hd
      simp only [usageRecord]
      split
      · rename_i hg
        exact div_nonneg (sub_nonneg.mpr hd) (le_of_lt hg)
      · exact le_refl 0
    · intro hd
      simp only [usageRecord]
      split
      · rename_i hg
        exact div_nonneg hd (le_of_lt hg)
      · exact le_refl 0
    · intro hd
      simp only [usageRecord]
      split
      · rename_i hg
        exact div_nonneg hd (le_of_lt hg)
      · exact le_refl 0

/-- C11, amended, at a concrete input: the read-time counter of `sda` went backwards, and
the rates and the ratios that do not use it are not negative. -/
theorem countDiskstatsUsage_nonneg_witness :
    [sdaPrev].length = [sdaReadTimeReset].length ∧ (0 : ℚ) ≤ 100 ∧
    ∃ out, countDiskstatsUsage sValue [sdaPrev] [sdaReadTimeReset] 100 = .ok out ∧
      ∀ r, out[0]? = some r →
        0 ≤ r.Util ∧ 0 ≤ r.Rcompleted ∧ 0 ≤ r.Wcompleted ∧ 0 ≤ r.Wawait ∧ 0 ≤ r.Arqsz := by
  refine ⟨rfl, by norm_num, ?_⟩
  obtain ⟨out, ho, h⟩ :=
    countDiskstatsUsage_nonneg [sdaPrev] [sdaReadTimeReset] 100 rfl (by norm_num)
  refine ⟨out, ho, ?_⟩
  intro r hr
  obtain ⟨⟨h1, _, _, h4, h5, _, _, _⟩, _, _, _, _, h6, _, h8⟩ :=
    h 0 sdaPrev sdaReadTimeReset r rfl rfl hr
  refine ⟨h1, h4, h5, h6 ?_, h8 ?_⟩ <;>
    simp only [sdaReadTimeReset, sdaCurr, sdaPrev] <;> norm_num

end stat

namespace view

/-! ### The column layout of the views -/

theorem selectLoop_get_none {Options : Type} (q : QueryPkg Options) (version : Int)
    (track : Bool) (k : String) :
    ∀ (keys : List String) (v : Views), v.get k = none →
      (selectLoop q version track keys v).get k = none := by
  intro keys
  induction keys with
  | nil => intro v h; exact h
  | cons k0 rest ih =>
    intro v h
    cases hg : v.get k0 with
    | none => simp only [selectLoop, hg]; exact ih v h
    | some view0 =>
      have h0 : k ≠ k0 := by
        intro e
        rw [e, hg] at h
        simp at h
      simp only [selectLoop, hg]
      apply ih
      rw [configureView_get_ne q version track k0 view0 v k h0]
      exact h

theorem Views.mem_of_get (v : Views) (k : String) (w : View) (h : v.get k = some w) :
    (k, w) ∈ v := by
  induction v with
  | nil => simp [Views.get_nil] at h
  | cons e rest ih =>
    obtain ⟨k0, w0⟩ := e
    rw [Views.get_cons] at h
    by_cases h1 : k = k0
    · simp only [h1, if_true] at h
      have e2 := Option.some.inj h
      simp [h1, e2]
    · simp only [h1, if_false] at h
      exact List.mem_cons_of_mem _ (ih h)

/-- Every view of `New()` has its column indices inside its layout. -/
theorem New_columnsOk {Options : Type} (q : QueryPkg Options) (k : String) (w : View)
    (h : (New q).get k = some w) : w.columnsOk := by
  have hm := Views.mem_of_get _ k w h
  simp only [New, List.mem_cons, List.mem_singleton, Prod.mk.injEq] at hm
  rcases hm with h | h | h | h | h | h | h | h | h | h | h | h | h | h | h | h
  all_goals first
    | (obtain ⟨_, e⟩ := h
       subst e
       simp [View.columnsOk])
    | simp at h

/-- The entry that the first loop writes from a view of `New()` has its column indices
inside its layout. -/
theorem configureView_columnsOk {Options : Type} (q : QueryPkg Options) (version : Int)
    (track : Bool) (k : String) (view w : View) (hk : (New q).get k = some view)
    (hw : (configureView q version track k view (New q)).get k = some w) :
    w.columnsOk := by
  have hview := New_columnsOk q k view hk
  unfold configureView at hw
  by_cases h1 : k = "activity"
  · subst h1
    have e : view.DiffIntvl = (0, 0) ∧ view.UniqueKey = 0 ∧ view.OrderKey = 0 := by
      simp only [New, Views.get_cons] at hk
      simp at hk
      subst hk
      simp
    simp only [if_true, Views.get_set] at hw
    split_ifs at hw
    · have e2 := Option.some.inj hw
      subst e2
      simp [View.columnsOk, e.1, e.2.1, e.2.2]
    · have e2 := Option.some.inj hw
      subst e2
      simp [View.columnsOk, e.1, e.2.1, e.2.2]
    · exact New_columnsOk q _ w hw
  · by_cases h2 : k = "replication"
    · subst h2
      have e : view.DiffIntvl = (6, 6) ∧ view.UniqueKey = 0 ∧ view.OrderKey = 0 := by
        simp only [New, Views.get_cons] at hk
        simp at hk
        subst hk
        simp
      simp only [h1, if_true, if_false, Views.get_set] at hw
      split_ifs at hw <;>
        (have e2 := Option.some.inj hw
         subst e2
         first
           | exact hview
           | simp [View.columnsOk, e.1, e.2.1, e.2.2])
    · by_cases h3 : k = "databases"
      · subst h3
        have e : view.UniqueKey = 0 ∧ view.OrderKey = 0 := by
          simp only [New, Views.get_cons] at hk
          simp at hk
          subst hk
          simp
        simp only [h1, h2, if_true, if_false, Views.get_set] at hw
        split_ifs at hw
        · have e2 := Option.some.inj hw
          subst e2
          simp [View.columnsOk, e.1, e.2]
        · exact New_columnsOk q _ w hw
      · by_cases h4 : k = "statements_timings"
        · subst h4
          simp only [h1, h2, h3, if_true, if_false, Views.get_set] at hw
          split_ifs at hw
          · have e2 := Option.some.inj hw
            subst e2
            exact hview
          · exact New_columnsOk q _ w hw
        · simp only [h1, h2, h3, h4, if_false] at hw
          exact New_columnsOk q k w hw

/-- C13: every view of `New()`, and every view of the map that `Configure` leaves from
`New()` for any version, recovery, track setting and app (whether the expansion succeeds or
not), has its indices inside its column layout: `0 <= DiffIntvl[0] <= DiffIntvl[1] < Ncols`,
`0 <= UniqueKey < Ncols` and `0 <= OrderKey < Ncols`. -/
theorem Configure_columns {Options : Type} (q : QueryPkg Options) (version : Int)
    (recovery track app : String) (k : String) (w : View)
    (h : (New q).get k = some w ∨
      (Configure q version recovery track app (New q)).2.get k = some w) :
    0 ≤ w.DiffIntvl.1 ∧ w.DiffIntvl.1 ≤ w.DiffIntvl.2 ∧ w.DiffIntvl.2 < w.Ncols ∧
      0 ≤ w.UniqueKey ∧ w.UniqueKey < w.Ncols ∧ 0 ≤ w.OrderKey ∧ w.OrderKey < w.Ncols := by
  rcases h with h | h
  · exact New_columnsOk q k w h
  · cases hk : (New q).get k with
    | none =>
      have h1 := formatLoop_get q (q.OptionsConfigure version recovery app) k
        (selectLoop q version (decide (track = "on")) (New q).keys (New q)).keys
        (selectLoop q version (decide (track = "on")) (New q).keys (New q))
      rw [selectLoop_get_none q version _ k _ _ hk] at h1
      have h2 : (Configure q version recovery track app (New q)).2.get k = none := by
        simpa [Configure] using h1
      rw [h2] at h
      simp at h
    | some view =>
      have h1 := Configure_get q version recovery track app (New q) k view
        (New_keys_nodup q) hk
      rw [h] at h1
      cases hc : (configureView q version (decide (track = "on")) k view (New q)).get k with
      | none =>
        rw [hc] at h1
        simp at h1
      | some w' =>
        rw [hc] at h1
        have e : w.eraseQuery = w'.eraseQuery := by simpa using h1
        have hw' := configureView_columnsOk q version _ k view w' hk hc
        have e1 : w.DiffIntvl = w'.DiffIntvl :=
          show w.eraseQuery.DiffIntvl = w'.eraseQuery.DiffIntvl from congrArg (fun x : View => x.DiffIntvl) e
        have e2 : w.Ncols = w'.Ncols :=
          show w.eraseQuery.Ncols = w'.eraseQuery.Ncols from congrArg (fun x : View => x.Ncols) e
        have e3 : w.UniqueKey = w'.UniqueKey :=
          show w.eraseQuery.UniqueKey = w'.eraseQuery.UniqueKey from congrArg (fun x : View => x.UniqueKey) e
        have e4 : w.OrderKey = w'.OrderKey :=
          show w.eraseQuery.OrderKey = w'.eraseQuery.OrderKey from congrArg (fun x : View => x.OrderKey) e
        rw [e1, e2, e3, e4]
        exact hw'

/-- C13 at a concrete input: the `activity` view after `Configure` for PostgreSQL 9.6, which
has 13 columns. -/
theorem Configure_columns_witness :
    ((New okQuery).get "activity" =
        some { Name := "activity", QueryTmpl := "PgStatActivity96",
               Query := "PgStatActivity96", DiffIntvl := (0, 0), Ncols := 13, OrderKey := 0,
               OrderDesc := true, Msg := "Show activity statistics" } ∨
      (Configure okQuery 90600 "f" "on" "pgcenter" (New okQuery)).2.get "activity" =
        some { Name := "activity", QueryTmpl := "PgStatActivity96",
               Query := "PgStatActivity96", DiffIntvl := (0, 0), Ncols := 13, OrderKey := 0,
               OrderDesc := true, Msg := "Show activity statistics" }) ∧
    (0 : Int) ≤ (0 : Int) ∧ (0 : Int) ≤ 0 ∧ (0 : Int) < 13 ∧ (0 : Int) ≤ 0 ∧ (0 : Int) < 13 ∧
      (0 : Int) ≤ 0 ∧ (0 : Int) < 13 :=
  ⟨Or.inr (by decide),
    Configure_columns okQuery 90600 "f" "on" "pgcenter" "activity"
      { Name := "activity", QueryTmpl := "PgStatActivity96",
        Query := "PgStatActivity96", DiffIntvl := (0, 0), Ncols := 13, OrderKey := 0,
        OrderDesc := true, Msg := "Show activity statistics" }
      (Or.inr (by decide))⟩

end view

namespace top

/-! ### Cancellation of `doWork2` -/

/-- What every step keeps: once a side is past its `close(ch)` the channel is closed and the
other side is not past its own, and `doWork2` has not returned. -/
theorem step_invariant (s s' : State) (e : Event) (h : step s e = some s')
    (hi : (s.producer = .atWgDone ∨ s.producer = .exited →
        s.closed = true ∧ s.consumer ≠ .atWait) ∧
      (s.consumer = .atWait → s.closed = true) ∧ s.consumer ≠ .returned) :
    (s'.producer = .atWgDone ∨ s'.producer = .exited →
        s'.closed = true ∧ s'.consumer ≠ .atWait) ∧
      (s'.consumer = .atWait → s'.closed = true) ∧ s'.consumer ≠ .returned := by
  obtain ⟨p, c, cl, ca, f, n, m⟩ := s
  simp only [step] at h
  split at h
  · simp at h
  · cases e <;> simp only [] at h <;> (try split_ifs at h)
    all_goals first
      | (exfalso
         simp at h
         done)
      | (have e2 := Option.some.inj h
         subst e2
         simp only [closeChannel]
         (try split_ifs) <;> simp_all)

/-- Along every schedule from the start `doWork2` has not returned: a run ends in a panic, or
with `doWork2` still inside its loop or blocked in `wg.Wait()`. -/
theorem run_invariant :
    ∀ (es : List Event) (s s' : State), run s es = some s' →
      ((s.producer = .atWgDone ∨ s.producer = .exited →
          s.closed = true ∧ s.consumer ≠ .atWait) ∧
        (s.consumer = .atWait → s.closed = true) ∧ s.consumer ≠ .returned) →
      s'.consumer ≠ .returned := by
  intro es
  induction es with
  | nil =>
    intro s s' h hi
    have e := Option.some.inj h
    subst e
    exact hi.2.2
  | cons e es ih =>
    intro s s' h hi
    simp only [run] at h
    cases hs : step s e with
    | none => simp [hs] at h
    | some t =>
      rw [hs] at h
      exact ih t s' h (step_invariant s t e hs hi)

/-- No schedule lets `doWork2` return. -/
theorem doWork2_never_returns (es : List Event) (s : State) (h : run init es = some s) :
    s.consumer ≠ .returned :=
  run_invariant es init s h (by simp [init])

/-- C12 fails on the code: when the context is cancelled after one frame, `doWork2` closes
the channel and then the goroutine closes it a second time, which panics; when it is
cancelled while `collectStat` is about to send, the send meets the closed channel, which
panics too. -/
theorem doWork2_cancel_faults :
    run init cancelAfterOneFrame =
        some { producer := .atClose, consumer := .atWait, closed := true, cancelled := true,
               fault := some .closeOfClosedChannel, closes := 2, handed := 1 } ∧
      run init cancelBeforeSend =
        some { producer := .atSend, consumer := .atWait, closed := true, cancelled := true,
               fault := some .sendOnClosedChannel, closes := 1, handed := 0 } := by
  refine ⟨by decide, by decide⟩

end top
